import Mathlib

/-! Formal model of the retrieval engine in src/services/processService.js:
the single-item fetch `fetchProcessData` (identifier normalization, response
parsing, and the failure classification in its catch block) and the batch
controller `fetchBatchProcesses` (sliding concurrency window of 20, progress
reporting, and the three-consecutive-connection-errors circuit breaker).
Asynchronous execution is modelled as a deterministic executor driven by an
explicit list of events (fetch completions and external cancellation), with
the main JS thread parked either at the `Promise.race` inside the
`while (active.size >= CONCURRENCY)` loop or at the final
`Promise.allSettled`, reproducing the Node event-loop interleaving. -/

/-- One flat result record: an ordered field-name/value mapping, as built by
`infoBase` and `formatarMovimento` in the source. -/
abbrev ProcessRecord := List (String × String)

/-- The header attributes scraped from the response form fields
(DAT_PROCESSO, NOM_INTERESSADO, ...). -/
structure ProcHeader where
  dataAbertura : String
  interessado : String
  requerente : String
  assunto : String
  complAssunto : String
  situacao : String
  observacao : String
  deriving DecidableEq

/-- The parsed response document, abstracted: whether the results table
`#proc_movimento_PROCESSO_list` is present, the header attributes, and the
table body rows (each row the list of its `td` texts). -/
structure RespDoc where
  hasTable : Bool
  header : ProcHeader
  rows : List (List String)
  deriving DecidableEq

/-- Shape of a raised network/parse error as inspected by the catch block of
`fetchProcessData`: the `axios.isCancel` test, `err.name`, `err.code` and
`err.message`. -/
structure ErrInfo where
  isCancel : Bool
  name : String
  code : String
  message : String
  deriving DecidableEq

/-- Outcome of the two awaited network calls of one fetch: a parsed response
document, or a raised error. -/
inductive NetOutcome where
  | ok (doc : RespDoc)
  | err (e : ErrInfo)
  deriving DecidableEq

/-- Return value of `fetchProcessData` as the JS caller sees it:
`null`, an array of records, or the `{ __error: "CONNECTION_ERROR",
numeroProcesso }` marker object. -/
inductive FetchRet where
  | nullRet
  | arr (rs : List ProcessRecord)
  | marker (numero : String)
  deriving DecidableEq

/-- The three branches of the catch block of `fetchProcessData`. -/
inductive ErrClass where
  | cancelled
  | connectionError
  | unexpected
  deriving DecidableEq

/-- `needle.isPrefixOf`-based scan: does `needle` occur contiguously in the
second list? Models JS `String.prototype.includes`. -/
def charSeqIn (needle : List Char) : List Char → Bool
  | [] => needle.isEmpty
  | c :: rest => needle.isPrefixOf (c :: rest) || charSeqIn needle rest

/-- JS `hay.includes(needle)`. -/
def strIncludes (hay needle : String) : Bool :=
  charSeqIn needle.data hay.data

/-- JS `String.prototype.toLowerCase` (per character). -/
def strLower (s : String) : String :=
  String.mk (s.data.map Char.toLower)

/-- JS `String.prototype.padStart(w, c)`. -/
def padStart (s : String) (w : Nat) (c : Char) : String :=
  String.mk (List.replicate (w - s.length) c) ++ s

/-- The fixed-offset slicing of `fetchProcessData` for identifiers supplied
without separators: `substring(0,3) / substring(3,9) / substring(9)`. -/
def sliceNumero (s : String) : String :=
  String.mk (s.data.take 3) ++ "/" ++ String.mk ((s.data.drop 3).take 6) ++ "/"
    ++ String.mk (s.data.drop 9)

/-- First statement of `fetchProcessData`: reconstruct the canonical
slash-separated form when the identifier has no "/". -/
def normalizeNumero (s : String) : String :=
  if strIncludes s "/" then s else sliceNumero s

/-- `err.code === "ECONNABORTED" || msg.includes("timeout") ||
msg.includes("timed out")` with `msg` the lowercased message. -/
def isTimeoutErr (e : ErrInfo) : Bool :=
  e.code == "ECONNABORTED" || strIncludes (strLower e.message) "timeout" ||
    strIncludes (strLower e.message) "timed out"

/-- `err.code` in ECONNREFUSED/ETIMEDOUT/ENOTFOUND, or the lowercased
message contains "connect econnrefused". -/
def isConnectionErr (e : ErrInfo) : Bool :=
  e.code == "ECONNREFUSED" || e.code == "ETIMEDOUT" || e.code == "ENOTFOUND" ||
    strIncludes (strLower e.message) "connect econnrefused"

/-- `axios.isCancel(err) || err.name === "CanceledError" ||
err.name === "AbortError"`. -/
def isCancelErr (e : ErrInfo) : Bool :=
  e.isCancel || e.name == "CanceledError" || e.name == "AbortError"

/-- Branch structure of the catch block of `fetchProcessData`: the
cancellation test first, then the timeout/connection test, else unexpected. -/
def classifyError (e : ErrInfo) : ErrClass :=
  if isCancelErr e = true then .cancelled
  else if (isTimeoutErr e || isConnectionErr e) = true then .connectionError
  else .unexpected

/-- The `infoBase` object literal of `fetchProcessData`. -/
def infoBase (numero : String) (h : ProcHeader) : ProcessRecord :=
  [("Número do Processo", numero),
   ("Data Abertura", h.dataAbertura),
   ("Interessado", h.interessado),
   ("Requerente", h.requerente),
   ("Assunto", h.assunto),
   ("Complemento do Assunto", h.complAssunto),
   ("Situação", h.situacao),
   ("Observação", h.observacao)]

/-- JS `cols[i] || ""` (out-of-range indexing yields `undefined`, hence ""). -/
def colOr (cols : List String) (i : Nat) : String :=
  cols.getD i ""

/-- The `formatarMovimento` helper: header fields plus movement columns
1..6 of a table row. -/
def formatarMovimento (base : ProcessRecord) (cols : List String) : ProcessRecord :=
  base ++
  [("Data Envio", colOr cols 1),
   ("Secretaria Origem", colOr cols 2),
   ("Setor Origem", colOr cols 3),
   ("Data Recebimento", colOr cols 4),
   ("Secretaria Destino", colOr cols 5),
   ("Setor Destino", colOr cols 6)]

/-- `fetchProcessData(numeroProcesso, firstOnly, signal)` as a function of
the network behaviour of its two awaited calls. Mirrors the source: identifier
normalized up front; no results table gives `null`; an empty table body gives
a single header-only record; `firstOnly` takes the last row (`rows.last()`);
otherwise one record per row; the catch block returns `null` on cancellation,
the CONNECTION_ERROR marker on timeout/connection failures, and `null` on
anything else. -/
def fetchProcessData (numeroProcesso : String) (firstOnly : Bool)
    (net : NetOutcome) : FetchRet :=
  let numero := normalizeNumero numeroProcesso
  match net with
  | .err e =>
    match classifyError e with
    | .cancelled => .nullRet
    | .connectionError => .marker numero
    | .unexpected => .nullRet
  | .ok doc =>
    if doc.hasTable = false then .nullRet
    else
      let base := infoBase numero doc.header
      if doc.rows.isEmpty then .arr [base]
      else if firstOnly then .arr [formatarMovimento base (doc.rows.getLastD [])]
      else .arr (doc.rows.map (fun cols => formatarMovimento base cols))

/-- `true` exactly on the CONNECTION_ERROR marker return
(`data && data.__error === "CONNECTION_ERROR"`). -/
def isConnMarker : FetchRet → Bool
  | .marker _ => true
  | _ => false

/-- The `CONCURRENCY` constant of `fetchBatchProcesses`. -/
def CONCURRENCY : Nat := 20

/-- The `MAX_CONSECUTIVE_CONN_ERRORS` constant of `fetchBatchProcesses`. -/
def MAX_CONSECUTIVE_CONN_ERRORS : Nat := 3

/-- The identifier built by the batch loop:
`prefix.padStart(3,"0") + "/" + i.toString().padStart(6,"0") + "/" + year`. -/
def numeroFor (pfx : String) (i : Nat) (year : String) : String :=
  padStart pfx 3 '0' ++ "/" ++ padStart (Nat.repr i) 6 '0' ++ "/" ++ year

/-- Where the single JS thread of `fetchBatchProcesses` is parked while fetch
completions run: inside the `while (active.size >= CONCURRENCY)` loop at
`Promise.race` (racing), at the final `Promise.allSettled` (draining), or
already returned/rejected (done). -/
inductive MainMode where
  | racing
  | draining
  | done
  deriving DecidableEq

/-- State of one `fetchBatchProcesses` invocation: the loop counter `i`
(`nextI` is the next identifier index to admit), the `active` set, the
mutable counters, the accumulated `results`, the log of `onProgress`
invocations `(doneCount, total, connectionError)`, the abort-signal flag, a
flag recording that `Error("PREFEITURA_OFFLINE")` was thrown, a flag
recording that this rejection actually propagated out of the function, and
the parked position of the main thread. -/
structure BatchSt where
  nextI : Nat
  inFlight : List Nat
  consecutiveConnErrors : Nat
  doneCount : Nat
  results : List ProcessRecord
  progressLog : List (Nat × Nat × Bool)
  aborted : Bool
  offline : Bool
  failed : Bool
  mode : MainMode
  deriving DecidableEq

/-- External events driving one batch run: completion of the in-flight fetch
for index `i`, or an external `controller.abort()` (user cancellation). -/
inductive BEvent where
  | complete (i : Nat)
  | cancel
  deriving DecidableEq

/-- The admission loop of `fetchBatchProcesses`, run while the main thread
holds control: admit `i` into the window while the signal is not aborted,
`i <= end`, and `active.size < CONCURRENCY`. The fuel is an upper bound on
the number of admissions (it is always chosen `≥ end + 1 - nextI`, which
provably suffices, so the fueled loop equals the JS unbounded one). -/
def admitBurstFuel : Nat → Nat → BatchSt → BatchSt
  | 0, _, s => s
  | fuel + 1, endI, s =>
    if s.aborted = false ∧ s.nextI ≤ endI ∧ s.inFlight.length < CONCURRENCY then
      admitBurstFuel fuel endI
        { s with nextI := s.nextI + 1, inFlight := s.inFlight ++ [s.nextI] }
    else s

/-- The admission loop with adequate fuel. -/
def admitBurst (endI : Nat) (s : BatchSt) : BatchSt :=
  admitBurstFuel (endI + 1 - s.nextI) endI s

/-- After the main thread regains control it admits as much as it can and
parks again: inside the `while` at `Promise.race` when the window is full
and the signal is not aborted; otherwise it falls out of the `for` loop to
`Promise.allSettled` (resolving immediately when nothing is in flight). -/
def repark (endI : Nat) (s : BatchSt) : BatchSt :=
  let t := admitBurst endI s
  if t.aborted = false ∧ CONCURRENCY ≤ t.inFlight.length then { t with mode := .racing }
  else if t.inFlight.isEmpty then { t with mode := .done }
  else { t with mode := .draining }

/-- The completion handler of one launched fetch (the async IIFE body after
`await fetchProcessData`), plus the `p.finally` removal from `active`:
if the signal is aborted the handler returns at once (result discarded);
a CONNECTION_ERROR marker bumps both counters, reports progress with the
warning flag, and at the threshold aborts everything and throws
PREFEITURA_OFFLINE (recorded in `offline`); any other value resets the
consecutive-error counter, appends the records when the value is a non-empty
array, bumps the completed counter and reports progress without the flag. -/
def handleCompletion (total : Nat) (oracle : Nat → FetchRet) (i : Nat)
    (s : BatchSt) : BatchSt :=
  let base := { s with inFlight := s.inFlight.erase i }
  if base.aborted = true then base
  else
    match oracle i with
    | .marker _ =>
      let s1 := { base with
        consecutiveConnErrors := base.consecutiveConnErrors + 1
        doneCount := base.doneCount + 1
        progressLog := base.progressLog ++ [(base.doneCount + 1, total, true)] }
      if MAX_CONSECUTIVE_CONN_ERRORS ≤ s1.consecutiveConnErrors then
        { s1 with aborted := true, offline := true }
      else s1
    | .nullRet =>
      { base with
        consecutiveConnErrors := 0
        doneCount := base.doneCount + 1
        progressLog := base.progressLog ++ [(base.doneCount + 1, total, false)] }
    | .arr rs =>
      let s2 := { base with
        consecutiveConnErrors := 0
        results := if 0 < rs.length then base.results ++ rs else base.results }
      { s2 with
        doneCount := s2.doneCount + 1
        progressLog := s2.progressLog ++ [(s2.doneCount + 1, total, false)] }

/-- One event processed against a parked state. A completion observed while
the main thread races a full window propagates a PREFEITURA_OFFLINE thrown by
that handler (`Promise.race` rejects, the catch rethrows it, the run fails);
otherwise the main thread resumes and re-parks. A completion observed while
draining at `Promise.allSettled` never propagates the rejection: `allSettled`
absorbs it and the run later resolves normally. -/
def stepEvent (endI total : Nat) (oracle : Nat → FetchRet) (s : BatchSt)
    (ev : BEvent) : BatchSt :=
  if s.mode = .done then s
  else
    match ev with
    | .cancel => { s with aborted := true }
    | .complete i =>
      if i ∈ s.inFlight then
        let t := handleCompletion total oracle i s
        if s.mode = .racing then
          if t.offline = true ∧ s.offline = false then
            { t with failed := true, mode := .done }
          else repark endI t
        else
          if t.inFlight.isEmpty then { t with mode := .done } else t
      else s

/-- Initial batch state for range start `start` (signal not aborted). -/
def initSt (start : Nat) : BatchSt :=
  { nextI := start
    inFlight := []
    consecutiveConnErrors := 0
    doneCount := 0
    results := []
    progressLog := []
    aborted := false
    offline := false
    failed := false
    mode := .racing }

/-- Process a list of events in order. -/
def runEvents (endI total : Nat) (oracle : Nat → FetchRet)
    (evs : List BEvent) (s : BatchSt) : BatchSt :=
  evs.foldl (stepEvent endI total oracle) s

/-- `fetchBatchProcesses(prefix, start, end, year, onProgress, firstOnly,
controller)` modelled as the state reached after the initial admission burst
and the given completion/cancellation events. Each index's fetch outcome is
`fetchProcessData` applied to that index's canonical identifier and its
network behaviour `net i`. -/
def fetchBatchProcesses (pfx : String) (start endI : Nat) (year : String)
    (firstOnly : Bool) (net : Nat → NetOutcome) (evs : List BEvent) : BatchSt :=
  runEvents endI (endI + 1 - start)
    (fun i => fetchProcessData (numeroFor pfx i year) firstOnly (net i))
    evs (repark endI (initSt start))

/-- What the awaited call `fetchBatchProcesses(...)` delivers to its caller:
a resolved record list, the PREFEITURA_OFFLINE rejection, or still pending. -/
inductive BatchResult where
  | ok (rs : List ProcessRecord)
  | offlineFailure
  | pending
  deriving DecidableEq

/-- Extract the delivered result from a batch state. -/
def batchResult (s : BatchSt) : BatchResult :=
  if s.failed = true then .offlineFailure
  else if s.mode = .done then .ok s.results
  else .pending

/-- A connection-refused error as axios raises it. -/
def connErr : ErrInfo :=
  { isCancel := false
    name := "Error"
    code := "ECONNREFUSED"
    message := "connect ECONNREFUSED 187.0.0.1:8004" }

/-- A read-phase axios timeout (`timeout: 25000` exceeded). -/
def axiosTimeoutErr : ErrInfo :=
  { isCancel := false
    name := "AxiosError"
    code := "ECONNABORTED"
    message := "timeout of 25000ms exceeded" }

/-- A connect-phase timeout. -/
def connectTimeoutErr : ErrInfo :=
  { isCancel := false
    name := "Error"
    code := "ETIMEDOUT"
    message := "connect ETIMEDOUT 187.0.0.1:8004" }

/-- The error axios raises when the abort signal fires. -/
def canceledErr : ErrInfo :=
  { isCancel := true
    name := "CanceledError"
    code := "ERR_CANCELED"
    message := "canceled" }

/-- An unexpected in-handler failure (not cancellation, not connectivity). -/
def unexpectedErr : ErrInfo :=
  { isCancel := false
    name := "TypeError"
    code := ""
    message := "Cannot read properties of undefined" }

/-- Empty header attributes. -/
def emptyHeader : ProcHeader :=
  { dataAbertura := ""
    interessado := ""
    requerente := ""
    assunto := ""
    complAssunto := ""
    situacao := ""
    observacao := "" }

/-- A response with no results table ("no such process"). -/
def noTableDoc : RespDoc :=
  { hasTable := false, header := emptyHeader, rows := [] }

/-- Sample header attributes. -/
def sampleHeader : ProcHeader :=
  { dataAbertura := "02/01/2025"
    interessado := "FULANO DE TAL"
    requerente := "FULANO DE TAL"
    assunto := "ALVARA"
    complAssunto := ""
    situacao := "EM ANDAMENTO"
    observacao := "" }

/-- A response whose table has exactly one movement row. -/
def sampleDoc : RespDoc :=
  { hasTable := true
    header := sampleHeader
    rows := [["1", "02/01/2025", "SEC A", "SETOR A", "03/01/2025",
              "SEC B", "SETOR B"]] }

/-- A response whose table is present but has no data rows. -/
def sampleDocNoRows : RespDoc :=
  { hasTable := true
    header := sampleHeader
    rows := [] }

/-- Invariant pieces that hold at every point of a batch run, independent of
where the main thread is parked: the window bound, abort-flag implications,
and - while the signal is not aborted - the bookkeeping equalities tying
completed count, in-flight count, loop counter, and progress log together. -/
structure CoreInv (start endI total : Nat) (s : BatchSt) : Prop where
  len_le : s.inFlight.length ≤ CONCURRENCY
  off_ab : s.offline = true → s.aborted = true
  fail_ab : s.failed = true → s.aborted = true
  live : s.aborted = false →
    start ≤ s.nextI ∧ s.nextI ≤ endI + 1 ∧
    s.doneCount + s.inFlight.length = s.nextI - start ∧
    s.progressLog.map (fun e => (e.1, e.2.1)) =
      (List.range s.doneCount).map (fun k => (k + 1, total)) ∧
    s.failed = false ∧ s.offline = false

/-- Full invariant of parked batch states: the core plus the parked-position
facts - a racing (un-aborted) thread always has a full window, a non-racing
thread has either an aborted signal or an exhausted range, and a finished
run either rejected or has drained its window. -/
structure BatchInv (start endI total : Nat) (s : BatchSt) : Prop where
  core : CoreInv start endI total s
  race_full : s.mode = .racing → s.aborted = false →
    s.inFlight.length = CONCURRENCY
  parked : s.mode ≠ .racing → s.aborted = true ∨ endI < s.nextI
  done_drained : s.mode = .done → s.failed = true ∨ s.inFlight = []

/-- Network behaviour for the C5 instantiation: a connection error on the
first identifier, a one-row success on the second. -/
def wNet : Nat → NetOutcome :=
  fun i => if i = 1 then .err connErr else .ok sampleDoc

/-- A concrete fetch-outcome oracle: every index a CONNECTION_ERROR marker. -/
def wOracle : Nat → FetchRet :=
  fun _ => .marker "018/000001/2025"

/-- The parked state of a [1,2] run just after the initial admission burst. -/
def wState : BatchSt := repark 2 (initSt 1)

/-- An oracle on which every fetch succeeds with one record. -/
def succOracle : Nat → FetchRet :=
  fun _ => .arr [[("Campo", "Valor")]]

/-- An aborted mid-run state with two fetches still in flight. -/
def wAborted : BatchSt :=
  { nextI := 5
    inFlight := [3, 4]
    consecutiveConnErrors := 3
    doneCount := 2
    results := []
    progressLog := []
    aborted := true
    offline := true
    failed := false
    mode := .draining }

/-- The accumulated results are a concatenation of non-empty record arrays,
each returned by some fetch (never the CONNECTION_ERROR marker, never a
null/empty outcome). -/
def ResultsFromSuccesses (oracle : Nat → FetchRet) (s : BatchSt) : Prop :=
  ∃ ls : List (List ProcessRecord), s.results = ls.flatten ∧
    ∀ rs ∈ ls, rs ≠ [] ∧ ∃ i : Nat, oracle i = .arr rs

theorem sanity_normalize : normalizeNumero "0180001232025" = "018/000123/2025" := by
  decide

theorem strMk_append (l1 l2 : List Char) :
    String.mk l1 ++ String.mk l2 = String.mk (l1 ++ l2) := rfl

theorem strMk_length (l : List Char) : (String.mk l).length = l.length := rfl

theorem padStart_length (s : String) (w : Nat) (c : Char) (h : s.length ≤ w) :
    (padStart s w c).length = w := by
  obtain ⟨l⟩ := s
  have hl : (padStart ⟨l⟩ w c).length =
      (List.replicate (w - l.length) c ++ l).length := rfl
  have h' : l.length ≤ w := h
  rw [hl, List.length_append, List.length_replicate]
  omega

/-- C6: for every identifier string supplied without separator characters (of
length at least 9, so that all three fixed offsets are populated),
canonicalization by fixed-offset slicing yields exactly three slash-separated
segments of widths 3 and 6 (the remainder being the year) that recompose to
the input; in particular "0180001232025" canonicalizes to "018/000123/2025";
and the identifiers built by the batch controller from (prefix, sequence,
year) have the same three-segment canonical form. -/
theorem canonical_form_slicing :
    normalizeNumero "0180001232025" = "018/000123/2025" ∧
    (∀ s : String, strIncludes s "/" = false → 9 ≤ s.length →
      ∃ a b c : String, normalizeNumero s = a ++ "/" ++ b ++ "/" ++ c ∧
        a.length = 3 ∧ b.length = 6 ∧ a ++ b ++ c = s) ∧
    (∀ (pfx year : String) (i : Nat), pfx.length ≤ 3 → (Nat.repr i).length ≤ 6 →
      ∃ a b c : String, numeroFor pfx i year = a ++ "/" ++ b ++ "/" ++ c ∧
        a.length = 3 ∧ b.length = 6 ∧ c = year) := by
  refine ⟨by decide, ?_, ?_⟩
  · intro s h hlen
    have hlen' : 9 ≤ s.data.length := hlen
    refine ⟨String.mk (s.data.take 3), String.mk ((s.data.drop 3).take 6),
      String.mk (s.data.drop 9), ?_, ?_, ?_, ?_⟩
    · simp only [normalizeNumero, h, Bool.false_eq_true, if_false, sliceNumero]
    · rw [strMk_length, List.length_take]
      omega
    · rw [strMk_length, List.length_take, List.length_drop]
      omega
    · have h9 : s.data.drop 9 = (s.data.drop 3).drop 6 := by
        rw [List.drop_drop]
      rw [h9, strMk_append, strMk_append, List.append_assoc,
        List.take_append_drop, List.take_append_drop]
  · intro pfx year i hp hi
    exact ⟨padStart pfx 3 '0', padStart (Nat.repr i) 6 '0', year, rfl,
      padStart_length pfx 3 '0' hp, padStart_length (Nat.repr i) 6 '0' hi, rfl⟩

theorem canonical_form_slicing_witness :
    (∃ a b c : String,
      normalizeNumero "0180001232025" = a ++ "/" ++ b ++ "/" ++ c ∧
      a.length = 3 ∧ b.length = 6 ∧ a ++ b ++ c = "0180001232025") ∧
    (∃ a b c : String, numeroFor "18" 123 "2025" = a ++ "/" ++ b ++ "/" ++ c ∧
      a.length = 3 ∧ b.length = 6 ∧ c = "2025") :=
  ⟨canonical_form_slicing.2.1 "0180001232025" (by decide) (by decide),
   canonical_form_slicing.2.2 "18" "2025" 123 (by decide) (by decide)⟩

/-- C7: with firstOnly = true a fetch returns at most one record per
identifier, and when the table has data rows that record is built from the
last row in table order; with firstOnly = false it returns one record per
data row; and a present table with no data rows yields exactly one record
carrying only the header attributes. -/
theorem fetch_rows_semantics :
    (∀ (numero : String) (net : NetOutcome) (rs : List ProcessRecord),
      fetchProcessData numero true net = .arr rs → rs.length ≤ 1) ∧
    (∀ (numero : String) (doc : RespDoc), doc.hasTable = true → doc.rows ≠ [] →
      fetchProcessData numero true (.ok doc) =
        .arr [formatarMovimento (infoBase (normalizeNumero numero) doc.header)
          (doc.rows.getLastD [])]) ∧
    (∀ (numero : String) (doc : RespDoc), doc.hasTable = true → doc.rows ≠ [] →
      ∃ rs, fetchProcessData numero false (.ok doc) = .arr rs ∧
        rs.length = doc.rows.length) ∧
    (∀ (numero : String) (doc : RespDoc) (fo : Bool), doc.hasTable = true →
      doc.rows = [] →
      fetchProcessData numero fo (.ok doc) =
        .arr [infoBase (normalizeNumero numero) doc.header]) := by
  refine ⟨?_, ?_, ?_, ?_⟩
  · intro numero net rs h
    match net with
    | .err e =>
      cases hc : classifyError e <;> simp [fetchProcessData, hc] at h
    | .ok doc =>
      by_cases ht : doc.hasTable = false
      · simp [fetchProcessData, ht] at h
      · by_cases he : doc.rows.isEmpty
        · simp [fetchProcessData, ht, he] at h
          simp [← h]
        · simp [fetchProcessData, ht, he] at h
          simp [← h]
  · intro numero doc ht hr
    have he : doc.rows.isEmpty = false := by
      cases hrows : doc.rows
      · exact absurd hrows hr
      · simp [hrows]
    simp [fetchProcessData, ht, he]
  · intro numero doc ht hr
    have he : doc.rows.isEmpty = false := by
      cases hrows : doc.rows
      · exact absurd hrows hr
      · simp [hrows]
    refine ⟨doc.rows.map (fun cols =>
      formatarMovimento (infoBase (normalizeNumero numero) doc.header) cols),
      ?_, ?_⟩
    · simp [fetchProcessData, ht, he]
    · simp
  · intro numero doc fo ht hr
    simp [fetchProcessData, ht, hr]

theorem fetch_rows_semantics_witness :
    (fetchProcessData "0180001232025" true (.ok sampleDoc) =
      .arr [formatarMovimento
        (infoBase (normalizeNumero "0180001232025") sampleDoc.header)
        (sampleDoc.rows.getLastD [])]) ∧
    (∃ rs, fetchProcessData "0180001232025" false (.ok sampleDoc) = .arr rs ∧
      rs.length = sampleDoc.rows.length) ∧
    (fetchProcessData "0180001232025" false (.ok sampleDocNoRows) =
      .arr [infoBase (normalizeNumero "0180001232025") sampleDocNoRows.header]) :=
  ⟨fetch_rows_semantics.2.1 "0180001232025" sampleDoc (by decide) (by decide),
   fetch_rows_semantics.2.2.1 "0180001232025" sampleDoc (by decide) (by decide),
   fetch_rows_semantics.2.2.2 "0180001232025" sampleDocNoRows false (by decide)
     (by decide)⟩

/-- C9: a timeout of either network step (connect-phase or read-phase) is
classified by the catch block as a connection failure and surfaces as the
CONNECTION_ERROR marker - never as the cancelled branch and never as the
unexpected branch - while a failure carrying the cancellation signal takes
the cancelled branch (tested first) and never becomes a connection error. -/
theorem timeout_classified_connection :
    (∀ e : ErrInfo, isCancelErr e = false →
      (isTimeoutErr e = true ∨ isConnectionErr e = true) →
      classifyError e = .connectionError) ∧
    (∀ e : ErrInfo, isCancelErr e = true → classifyError e = .cancelled) ∧
    (∀ (numero : String) (fo : Bool) (e : ErrInfo), isCancelErr e = false →
      isTimeoutErr e = true →
      fetchProcessData numero fo (.err e) = .marker (normalizeNumero numero)) ∧
    (∀ (numero : String) (fo : Bool) (e : ErrInfo), isCancelErr e = true →
      fetchProcessData numero fo (.err e) = .nullRet) ∧
    classifyError axiosTimeoutErr = .connectionError ∧
    classifyError connectTimeoutErr = .connectionError ∧
    classifyError canceledErr = .cancelled := by
  refine ⟨?_, ?_, ?_, ?_, by decide, by decide, by decide⟩
  · intro e hc ht
    rcases ht with h | h <;> simp [classifyError, hc, h]
  · intro e hc
    simp [classifyError, hc]
  · intro numero fo e hc ht
    have hcl : classifyError e = .connectionError := by
      simp [classifyError, hc, ht]
    simp [fetchProcessData, hcl]
  · intro numero fo e hc
    have hcl : classifyError e = .cancelled := by
      simp [classifyError, hc]
    simp [fetchProcessData, hcl]

theorem timeout_classified_connection_witness :
    classifyError axiosTimeoutErr = .connectionError ∧
    fetchProcessData "0180001232025" false (.err axiosTimeoutErr) =
      .marker (normalizeNumero "0180001232025") ∧
    fetchProcessData "0180001232025" false (.err canceledErr) = .nullRet :=
  ⟨timeout_classified_connection.1 axiosTimeoutErr (by decide) (Or.inl (by decide)),
   timeout_classified_connection.2.2.1 "0180001232025" false axiosTimeoutErr
     (by decide) (by decide),
   timeout_classified_connection.2.2.2.1 "0180001232025" false canceledErr
     (by decide)⟩

/-- C4 counterexample: a fetch whose request was cancelled, a fetch whose
response has no results table (empty result), and a fetch that failed with an
unexpected error all return the very same value (null), so the claimed
Cancelled variant is not distinguishable by the caller from EmptyResult or
from an Unexpected error in the fetch's outcome. -/
theorem cancelled_equals_empty_return :
    fetchProcessData "018/000123/2025" false (.err canceledErr) =
      fetchProcessData "018/000123/2025" false (.ok noTableDoc) ∧
    fetchProcessData "018/000123/2025" false (.err canceledErr) =
      fetchProcessData "018/000123/2025" false (.err unexpectedErr) ∧
    fetchProcessData "018/000123/2025" false (.err canceledErr) =
      FetchRet.nullRet := by
  decide

/-- C4 amended: every single-item fetch returns exactly one of three
distinguishable values - null (covering EmptyResult, Cancelled and
Unexpected failures alike), a non-empty record array, or the
CONNECTION_ERROR marker carrying the canonical identifier - and a failure
carrying the cancellation signal yields null; the batch caller detects
cancellation by consulting the shared abort signal, not the return value. -/
theorem fetch_outcome_trichotomy :
    (∀ (numero : String) (fo : Bool) (net : NetOutcome),
      fetchProcessData numero fo net = .nullRet ∨
      (∃ rs, fetchProcessData numero fo net = .arr rs ∧ rs ≠ []) ∨
      fetchProcessData numero fo net = .marker (normalizeNumero numero)) ∧
    (∀ (numero : String) (fo : Bool) (e : ErrInfo), isCancelErr e = true →
      fetchProcessData numero fo (.err e) = .nullRet) := by
  constructor
  · intro numero fo net
    match net with
    | .err e =>
      cases hc : classifyError e
      · exact Or.inl (by simp [fetchProcessData, hc])
      · exact Or.inr (Or.inr (by simp [fetchProcessData, hc]))
      · exact Or.inl (by simp [fetchProcessData, hc])
    | .ok doc =>
      by_cases ht : doc.hasTable = false
      · exact Or.inl (by simp [fetchProcessData, ht])
      · by_cases he : doc.rows.isEmpty
        · exact Or.inr (Or.inl ⟨[infoBase (normalizeNumero numero) doc.header],
            by simp [fetchProcessData, ht, he], by simp⟩)
        · cases fo
          · refine Or.inr (Or.inl ⟨doc.rows.map (fun cols =>
              formatarMovimento (infoBase (normalizeNumero numero) doc.header)
                cols), by simp [fetchProcessData, ht, he], ?_⟩)
            simp only [ne_eq, List.map_eq_nil_iff]
            intro hnil
            rw [hnil] at he
            exact he rfl
          · exact Or.inr (Or.inl ⟨[formatarMovimento
              (infoBase (normalizeNumero numero) doc.header)
              (doc.rows.getLastD [])],
              by simp [fetchProcessData, ht, he], by simp⟩)
  · intro numero fo e hc
    have hcl : classifyError e = .cancelled := by
      simp [classifyError, hc]
    simp [fetchProcessData, hcl]

theorem fetch_outcome_trichotomy_witness :
    (fetchProcessData "0180001232025" false (.ok sampleDoc) = .nullRet ∨
     (∃ rs, fetchProcessData "0180001232025" false (.ok sampleDoc) = .arr rs ∧
       rs ≠ []) ∨
     fetchProcessData "0180001232025" false (.ok sampleDoc) =
       .marker (normalizeNumero "0180001232025")) ∧
    fetchProcessData "0180001232025" false (.err canceledErr) = .nullRet :=
  ⟨fetch_outcome_trichotomy.1 "0180001232025" false (.ok sampleDoc),
   fetch_outcome_trichotomy.2 "0180001232025" false canceledErr (by decide)⟩

/-- C1: the counter logic itself behaves as claimed - three consecutive
CONNECTION_ERROR completions drive the counter to the threshold 3 and open
the circuit (the abort signal fires and PREFEITURA_OFFLINE is thrown), and a
non-ConnectionError completion resets the counter so a fourth connection
error preceded by one success does not open it - but the claimed termination
of the run with OutageDetected does not happen here: on range [1,3] with all
three fetches failing with ECONNREFUSED, fewer than CONCURRENCY fetches are
in flight, the main thread is parked at Promise.allSettled, the rejection is
swallowed, and fetchBatchProcesses resolves normally with []. -/
theorem circuit_opens_but_run_resolves :
    (let s := fetchBatchProcesses "018" 1 3 "2025" false (fun _ => .err connErr)
        [.complete 1, .complete 2, .complete 3]
     s.consecutiveConnErrors = 3 ∧ s.aborted = true ∧ s.offline = true ∧
       s.failed = false ∧ batchResult s = .ok []) ∧
    (let t := fetchBatchProcesses "018" 1 4 "2025" false
        (fun i => if i = 3 then .ok sampleDoc else .err connErr)
        [.complete 1, .complete 2, .complete 3, .complete 4]
     t.offline = false ∧ t.aborted = false ∧ t.consecutiveConnErrors = 1 ∧
       t.failed = false ∧ t.mode = .done) := by
  decide

/-- C2: the circuit opens (threshold reached, abort signalled,
PREFEITURA_OFFLINE thrown) on range [1,4] with connection errors at 1,2,3,
yet fetchBatchProcesses does not fail with the distinguished condition: the
third consecutive error completes while the window is below CONCURRENCY, so
the rejection is only seen by Promise.allSettled, which absorbs it, and the
run resolves with the (empty) record list. -/
theorem offline_rejection_swallowed_in_drain :
    (fetchBatchProcesses "018" 1 4 "2025" false
        (fun i => if i ≤ 3 then .err connErr else .ok sampleDoc)
        [.complete 1, .complete 2, .complete 3, .complete 4]).offline = true ∧
    (fetchBatchProcesses "018" 1 4 "2025" false
        (fun i => if i ≤ 3 then .err connErr else .ok sampleDoc)
        [.complete 1, .complete 2, .complete 3, .complete 4]).aborted = true ∧
    (fetchBatchProcesses "018" 1 4 "2025" false
        (fun i => if i ≤ 3 then .err connErr else .ok sampleDoc)
        [.complete 1, .complete 2, .complete 3, .complete 4]).failed = false ∧
    batchResult (fetchBatchProcesses "018" 1 4 "2025" false
        (fun i => if i ≤ 3 then .err connErr else .ok sampleDoc)
        [.complete 1, .complete 2, .complete 3, .complete 4]) = .ok [] := by
  decide

/-- When the third consecutive connection error instead completes while the
main thread is racing a full window (range [1,40], twenty fetches in
flight), the PREFEITURA_OFFLINE rejection does propagate through
Promise.race and the run fails with the distinguished condition. -/
theorem offline_rejection_propagates_when_racing :
    let s := fetchBatchProcesses "018" 1 40 "2025" false (fun _ => .err connErr)
        [.complete 1, .complete 2, .complete 3]
    s.offline = true ∧ s.failed = true ∧ batchResult s = .offlineFailure := by
  decide

theorem admitBurstFuel_succ (n endI : Nat) (s : BatchSt) :
    admitBurstFuel (n + 1) endI s =
      if s.aborted = false ∧ s.nextI ≤ endI ∧ s.inFlight.length < CONCURRENCY
      then admitBurstFuel n endI
        { s with nextI := s.nextI + 1, inFlight := s.inFlight ++ [s.nextI] }
      else s := rfl

theorem admitBurstFuel_unchanged (fuel endI : Nat) (s : BatchSt) :
    (admitBurstFuel fuel endI s).aborted = s.aborted ∧
    (admitBurstFuel fuel endI s).mode = s.mode ∧
    (admitBurstFuel fuel endI s).results = s.results ∧
    (admitBurstFuel fuel endI s).progressLog = s.progressLog ∧
    (admitBurstFuel fuel endI s).doneCount = s.doneCount ∧
    (admitBurstFuel fuel endI s).consecutiveConnErrors = s.consecutiveConnErrors ∧
    (admitBurstFuel fuel endI s).offline = s.offline ∧
    (admitBurstFuel fuel endI s).failed = s.failed := by
  induction fuel generalizing s with
  | zero => exact ⟨rfl, rfl, rfl, rfl, rfl, rfl, rfl, rfl⟩
  | succ n ih =>
    rw [admitBurstFuel_succ]
    by_cases hc : s.aborted = false ∧ s.nextI ≤ endI ∧
        s.inFlight.length < CONCURRENCY
    · rw [if_pos hc]
      exact ih _
    · rw [if_neg hc]
      exact ⟨rfl, rfl, rfl, rfl, rfl, rfl, rfl, rfl⟩

theorem admitBurstFuel_aborted (fuel endI : Nat) (s : BatchSt)
    (h : s.aborted = true) : admitBurstFuel fuel endI s = s := by
  cases fuel with
  | zero => rfl
  | succ n =>
    rw [admitBurstFuel_succ, if_neg]
    intro hh
    rw [h] at hh
    exact absurd hh.1 (by simp)

theorem admitBurstFuel_len_le (fuel endI : Nat) (s : BatchSt)
    (h : s.inFlight.length ≤ CONCURRENCY) :
    (admitBurstFuel fuel endI s).inFlight.length ≤ CONCURRENCY := by
  induction fuel generalizing s with
  | zero => exact h
  | succ n ih =>
    rw [admitBurstFuel_succ]
    by_cases hc : s.aborted = false ∧ s.nextI ≤ endI ∧
        s.inFlight.length < CONCURRENCY
    · rw [if_pos hc]
      apply ih
      have h2 := hc.2.2
      dsimp only
      rw [List.length_append]
      simp only [List.length_cons, List.length_nil]
      omega
    · rw [if_neg hc]
      exact h

theorem admitBurstFuel_count (fuel endI : Nat) (s : BatchSt) :
    (admitBurstFuel fuel endI s).inFlight.length + s.nextI =
      s.inFlight.length + (admitBurstFuel fuel endI s).nextI := by
  induction fuel generalizing s with
  | zero => rfl
  | succ n ih =>
    rw [admitBurstFuel_succ]
    by_cases hc : s.aborted = false ∧ s.nextI ≤ endI ∧
        s.inFlight.length < CONCURRENCY
    · rw [if_pos hc]
      have h2 := ih
        { s with nextI := s.nextI + 1, inFlight := s.inFlight ++ [s.nextI] }
      dsimp only at h2
      rw [List.length_append] at h2
      simp only [List.length_cons, List.length_nil] at h2
      omega
    · rw [if_neg hc]

theorem admitBurstFuel_nextI_ge (fuel endI : Nat) (s : BatchSt) :
    s.nextI ≤ (admitBurstFuel fuel endI s).nextI := by
  induction fuel generalizing s with
  | zero => exact Nat.le_refl _
  | succ n ih =>
    rw [admitBurstFuel_succ]
    by_cases hc : s.aborted = false ∧ s.nextI ≤ endI ∧
        s.inFlight.length < CONCURRENCY
    · rw [if_pos hc]
      have h2 := ih
        { s with nextI := s.nextI + 1, inFlight := s.inFlight ++ [s.nextI] }
      dsimp only at h2
      omega
    · rw [if_neg hc]

theorem admitBurstFuel_nextI_le (fuel endI : Nat) (s : BatchSt)
    (h : s.nextI ≤ endI + 1) :
    (admitBurstFuel fuel endI s).nextI ≤ endI + 1 := by
  induction fuel generalizing s with
  | zero => exact h
  | succ n ih =>
    rw [admitBurstFuel_succ]
    by_cases hc : s.aborted = false ∧ s.nextI ≤ endI ∧
        s.inFlight.length < CONCURRENCY
    · rw [if_pos hc]
      apply ih
      dsimp only
      omega
    · rw [if_neg hc]
      exact h

theorem admitBurstFuel_stop (fuel endI : Nat) (s : BatchSt)
    (hfuel : endI + 1 ≤ s.nextI + fuel)
    (hab : (admitBurstFuel fuel endI s).aborted = false)
    (hlt : (admitBurstFuel fuel endI s).nextI ≤ endI) :
    CONCURRENCY ≤ (admitBurstFuel fuel endI s).inFlight.length := by
  induction fuel generalizing s with
  | zero =>
    rw [show admitBurstFuel 0 endI s = s from rfl] at hlt ⊢
    omega
  | succ n ih =>
    rw [admitBurstFuel_succ] at hab hlt ⊢
    by_cases hc : s.aborted = false ∧ s.nextI ≤ endI ∧
        s.inFlight.length < CONCURRENCY
    · rw [if_pos hc] at hab hlt ⊢
      refine ih _ ?_ hab hlt
      dsimp only
      omega
    · rw [if_neg hc] at hab hlt ⊢
      push_neg at hc
      exact hc hab hlt

theorem repark_inv (start endI total : Nat) (s : BatchSt)
    (h : CoreInv start endI total s) :
    BatchInv start endI total (repark endI s) := by
  unfold repark admitBurst
  obtain ⟨hu1, hu2, hu3, hu4, hu5, hu6, hu7, hu8⟩ :=
    admitBurstFuel_unchanged (endI + 1 - s.nextI) endI s
  have hlen := admitBurstFuel_len_le (endI + 1 - s.nextI) endI s h.len_le
  have hcnt := admitBurstFuel_count (endI + 1 - s.nextI) endI s
  have hge := admitBurstFuel_nextI_ge (endI + 1 - s.nextI) endI s
  have hcore : CoreInv start endI total
      (admitBurstFuel (endI + 1 - s.nextI) endI s) := by
    refine ⟨hlen, ?_, ?_, ?_⟩
    · rw [hu7, hu1]
      exact h.off_ab
    · rw [hu8, hu1]
      exact h.fail_ab
    · rw [hu1, hu5, hu4, hu8, hu7]
      intro hab
      obtain ⟨l1, l2, l3, l4, l5, l6⟩ := h.live hab
      have hle := admitBurstFuel_nextI_le (endI + 1 - s.nextI) endI s l2
      exact ⟨by omega, hle, by omega, l4, l5, l6⟩
  by_cases hr : (admitBurstFuel (endI + 1 - s.nextI) endI s).aborted = false ∧
      CONCURRENCY ≤ (admitBurstFuel (endI + 1 - s.nextI) endI s).inFlight.length
  · rw [if_pos hr]
    refine ⟨⟨hcore.len_le, hcore.off_ab, hcore.fail_ab, hcore.live⟩, ?_, ?_, ?_⟩
    · intro _ _
      exact Nat.le_antisymm hlen hr.2
    · intro hm
      exact absurd rfl hm
    · intro hm
      exact absurd hm (by simp)
  · rw [if_neg hr]
    have hside : (admitBurstFuel (endI + 1 - s.nextI) endI s).aborted = true ∨
        endI < (admitBurstFuel (endI + 1 - s.nextI) endI s).nextI := by
      by_cases hab : (admitBurstFuel (endI + 1 - s.nextI) endI s).aborted = false
      · right
        by_contra hgt
        push_neg at hgt
        exact absurd
          (admitBurstFuel_stop (endI + 1 - s.nextI) endI s (by omega) hab hgt)
          (fun hstop => hr ⟨hab, hstop⟩)
      · left
        revert hab
        cases (admitBurstFuel (endI + 1 - s.nextI) endI s).aborted <;> simp
    by_cases he : (admitBurstFuel (endI + 1 - s.nextI) endI s).inFlight.isEmpty
    · rw [if_pos he]
      refine ⟨⟨hcore.len_le, hcore.off_ab, hcore.fail_ab, hcore.live⟩, ?_, ?_, ?_⟩
      · intro hm
        exact absurd hm (by simp)
      · intro _
        exact hside
      · intro _
        right
        rwa [List.isEmpty_iff] at he
    · rw [if_neg he]
      refine ⟨⟨hcore.len_le, hcore.off_ab, hcore.fail_ab, hcore.live⟩, ?_, ?_, ?_⟩
      · intro hm
        exact absurd hm (by simp)
      · intro _
        exact hside
      · intro hm
        exact absurd hm (by simp)

theorem handleCompletion_aborted (total : Nat) (oracle : Nat → FetchRet)
    (i : Nat) (s : BatchSt) (h : s.aborted = true) :
    handleCompletion total oracle i s = { s with inFlight := s.inFlight.erase i } := by
  simp [handleCompletion, h]

theorem handleCompletion_null (total : Nat) (oracle : Nat → FetchRet)
    (i : Nat) (s : BatchSt) (hab : s.aborted = false) (ho : oracle i = .nullRet) :
    handleCompletion total oracle i s =
      { s with
        inFlight := s.inFlight.erase i
        consecutiveConnErrors := 0
        doneCount := s.doneCount + 1
        progressLog := s.progressLog ++ [(s.doneCount + 1, total, false)] } := by
  simp [handleCompletion, hab, ho]

theorem handleCompletion_arr (total : Nat) (oracle : Nat → FetchRet)
    (i : Nat) (s : BatchSt) (rs : List ProcessRecord)
    (hab : s.aborted = false) (ho : oracle i = .arr rs) :
    handleCompletion total oracle i s =
      { s with
        inFlight := s.inFlight.erase i
        consecutiveConnErrors := 0
        results := if 0 < rs.length then s.results ++ rs else s.results
        doneCount := s.doneCount + 1
        progressLog := s.progressLog ++ [(s.doneCount + 1, total, false)] } := by
  simp [handleCompletion, hab, ho]

theorem handleCompletion_marker_low (total : Nat) (oracle : Nat → FetchRet)
    (i : Nat) (s : BatchSt) (n : String)
    (hab : s.aborted = false) (ho : oracle i = .marker n)
    (hth : ¬ MAX_CONSECUTIVE_CONN_ERRORS ≤ s.consecutiveConnErrors + 1) :
    handleCompletion total oracle i s =
      { s with
        inFlight := s.inFlight.erase i
        consecutiveConnErrors := s.consecutiveConnErrors + 1
        doneCount := s.doneCount + 1
        progressLog := s.progressLog ++ [(s.doneCount + 1, total, true)] } := by
  simp [handleCompletion, hab, ho, hth]

theorem handleCompletion_marker_trip (total : Nat) (oracle : Nat → FetchRet)
    (i : Nat) (s : BatchSt) (n : String)
    (hab : s.aborted = false) (ho : oracle i = .marker n)
    (hth : MAX_CONSECUTIVE_CONN_ERRORS ≤ s.consecutiveConnErrors + 1) :
    handleCompletion total oracle i s =
      { s with
        inFlight := s.inFlight.erase i
        consecutiveConnErrors := s.consecutiveConnErrors + 1
        doneCount := s.doneCount + 1
        progressLog := s.progressLog ++ [(s.doneCount + 1, total, true)]
        aborted := true
        offline := true } := by
  simp [handleCompletion, hab, ho, hth]

theorem handleCompletion_fixed (total : Nat) (oracle : Nat → FetchRet)
    (i : Nat) (s : BatchSt) :
    (handleCompletion total oracle i s).nextI = s.nextI ∧
    (handleCompletion total oracle i s).mode = s.mode ∧
    (handleCompletion total oracle i s).failed = s.failed := by
  by_cases hab : s.aborted = true
  · rw [handleCompletion_aborted total oracle i s hab]
    exact ⟨rfl, rfl, rfl⟩
  · have hab' : s.aborted = false := by
      revert hab
      cases s.aborted <;> simp
    cases ho : oracle i with
    | nullRet =>
      rw [handleCompletion_null total oracle i s hab' ho]
      exact ⟨rfl, rfl, rfl⟩
    | arr rs =>
      rw [handleCompletion_arr total oracle i s rs hab' ho]
      exact ⟨rfl, rfl, rfl⟩
    | marker n =>
      by_cases hth : MAX_CONSECUTIVE_CONN_ERRORS ≤ s.consecutiveConnErrors + 1
      · rw [handleCompletion_marker_trip total oracle i s n hab' ho hth]
        exact ⟨rfl, rfl, rfl⟩
      · rw [handleCompletion_marker_low total oracle i s n hab' ho hth]
        exact ⟨rfl, rfl, rfl⟩

theorem handleCompletion_core (start endI total : Nat) (oracle : Nat → FetchRet)
    (i : Nat) (s : BatchSt) (hab : s.aborted = false) (hmem : i ∈ s.inFlight)
    (h : CoreInv start endI total s) :
    CoreInv start endI total (handleCompletion total oracle i s) := by
  have herase : (s.inFlight.erase i).length = s.inFlight.length - 1 :=
    List.length_erase_of_mem hmem
  have hpos : 1 ≤ s.inFlight.length :=
    List.length_pos.mpr (List.ne_nil_of_mem hmem)
  have hlen := h.len_le
  obtain ⟨l1, l2, l3, l4, l5, l6⟩ := h.live hab
  have hlog : ∀ flag : Bool,
      (s.progressLog ++ [(s.doneCount + 1, total, flag)]).map
          (fun e => (e.1, e.2.1)) =
        (List.range (s.doneCount + 1)).map (fun k => (k + 1, total)) := by
    intro flag
    rw [List.map_append, l4, List.range_succ, List.map_append]
    rfl
  cases ho : oracle i with
  | nullRet =>
    rw [handleCompletion_null total oracle i s hab ho]
    refine ⟨?_, h.off_ab, h.fail_ab, ?_⟩
    · show (s.inFlight.erase i).length ≤ CONCURRENCY
      omega
    · intro _
      dsimp only
      exact ⟨by omega, l2, by omega, hlog false, l5, l6⟩
  | arr rs =>
    rw [handleCompletion_arr total oracle i s rs hab ho]
    refine ⟨?_, h.off_ab, h.fail_ab, ?_⟩
    · show (s.inFlight.erase i).length ≤ CONCURRENCY
      omega
    · intro _
      dsimp only
      exact ⟨by omega, l2, by omega, hlog false, l5, l6⟩
  | marker n =>
    by_cases hth : MAX_CONSECUTIVE_CONN_ERRORS ≤ s.consecutiveConnErrors + 1
    · rw [handleCompletion_marker_trip total oracle i s n hab ho hth]
      refine ⟨?_, fun _ => rfl, fun _ => rfl, ?_⟩
      · show (s.inFlight.erase i).length ≤ CONCURRENCY
        omega
      · intro hh
        exact absurd hh (by simp)
    · rw [handleCompletion_marker_low total oracle i s n hab ho hth]
      refine ⟨?_, h.off_ab, h.fail_ab, ?_⟩
      · show (s.inFlight.erase i).length ≤ CONCURRENCY
        omega
      · intro _
        dsimp only
        exact ⟨by omega, l2, by omega, hlog true, l5, l6⟩

theorem stepEvent_inv (start endI total : Nat) (oracle : Nat → FetchRet)
    (s : BatchSt) (ev : BEvent) (h : BatchInv start endI total s) :
    BatchInv start endI total (stepEvent endI total oracle s ev) := by
  by_cases hdone : s.mode = .done
  · rw [show stepEvent endI total oracle s ev = s from by
      unfold stepEvent
      rw [if_pos hdone]]
    exact h
  · cases ev with
    | cancel =>
      rw [show stepEvent endI total oracle s .cancel = { s with aborted := true } from by
        unfold stepEvent
        dsimp only
        rw [if_neg hdone]]
      refine ⟨⟨h.core.len_le, fun _ => rfl, fun _ => rfl, ?_⟩, ?_, ?_, ?_⟩
      · intro hh
        exact absurd hh (by simp)
      · intro _ hh
        exact absurd hh (by simp)
      · intro _
        exact Or.inl rfl
      · intro hm
        exact absurd hm hdone
    | complete i =>
      by_cases hmem : i ∈ s.inFlight
      · have hcoret : CoreInv start endI total (handleCompletion total oracle i s) := by
          by_cases habt : s.aborted = true
          · rw [handleCompletion_aborted total oracle i s habt]
            refine ⟨?_, h.core.off_ab, h.core.fail_ab, ?_⟩
            · exact le_trans
                (List.Sublist.length_le (List.erase_sublist i s.inFlight))
                h.core.len_le
            · intro hh
              dsimp only at hh
              rw [habt] at hh
              exact absurd hh (by simp)
          · have hab' : s.aborted = false := by
              revert habt
              cases s.aborted <;> simp
            exact handleCompletion_core start endI total oracle i s hab' hmem h.core
        have hfix := handleCompletion_fixed total oracle i s
        rw [show stepEvent endI total oracle s (.complete i) =
            (if s.mode = .racing then
              if (handleCompletion total oracle i s).offline = true ∧
                  s.offline = false then
                { handleCompletion total oracle i s with
                  failed := true
                  mode := .done }
              else repark endI (handleCompletion total oracle i s)
            else
              if (handleCompletion total oracle i s).inFlight.isEmpty then
                { handleCompletion total oracle i s with mode := .done }
              else handleCompletion total oracle i s) from by
          unfold stepEvent
          dsimp only
          rw [if_neg hdone, if_pos hmem]]
        by_cases hrace : s.mode = .racing
        · rw [if_pos hrace]
          by_cases hoff : (handleCompletion total oracle i s).offline = true ∧
              s.offline = false
          · rw [if_pos hoff]
            have htab : (handleCompletion total oracle i s).aborted = true :=
              hcoret.off_ab hoff.1
            refine ⟨⟨hcoret.len_le, fun _ => htab, fun _ => htab, ?_⟩, ?_, ?_, ?_⟩
            · intro hh
              dsimp only at hh
              rw [htab] at hh
              exact absurd hh (by simp)
            · intro hm
              exact absurd hm (by simp)
            · intro _
              exact Or.inl htab
            · intro _
              exact Or.inl rfl
          · rw [if_neg hoff]
            exact repark_inv start endI total _ hcoret
        · rw [if_neg hrace]
          have hparked : (handleCompletion total oracle i s).aborted = true ∨
              endI < (handleCompletion total oracle i s).nextI := by
            rcases h.parked hrace with hx | hx
            · left
              rw [handleCompletion_aborted total oracle i s hx]
              exact hx
            · right
              rw [hfix.1]
              exact hx
          by_cases hemp : (handleCompletion total oracle i s).inFlight.isEmpty
          · rw [if_pos hemp]
            refine ⟨⟨hcoret.len_le, hcoret.off_ab, hcoret.fail_ab, hcoret.live⟩,
              ?_, ?_, ?_⟩
            · intro hm
              exact absurd hm (by simp)
            · intro _
              exact hparked
            · intro _
              right
              rwa [List.isEmpty_iff] at hemp
          · rw [if_neg hemp]
            refine ⟨hcoret, ?_, ?_, ?_⟩
            · intro hm
              rw [hfix.2.1] at hm
              exact absurd hm hrace
            · intro _
              exact hparked
            · intro hm
              rw [hfix.2.1] at hm
              exact absurd hm hdone
      · rw [show stepEvent endI total oracle s (.complete i) = s from by
          unfold stepEvent
          dsimp only
          rw [if_neg hdone, if_neg hmem]]
        exact h

theorem runEvents_inv (start endI total : Nat) (oracle : Nat → FetchRet)
    (evs : List BEvent) (s : BatchSt) (h : BatchInv start endI total s) :
    BatchInv start endI total (runEvents endI total oracle evs s) := by
  induction evs generalizing s with
  | nil => exact h
  | cons e rest ih =>
    exact ih _ (stepEvent_inv start endI total oracle s e h)

theorem initSt_core (start endI total : Nat) (hstart : start ≤ endI + 1) :
    CoreInv start endI total (initSt start) := by
  refine ⟨?_, ?_, ?_, ?_⟩
  · simp [initSt, CONCURRENCY]
  · intro hh
    exact absurd hh (by simp [initSt])
  · intro hh
    exact absurd hh (by simp [initSt])
  · intro _
    refine ⟨Nat.le_refl _, hstart, ?_, ?_, rfl, rfl⟩
    · simp [initSt]
    · simp [initSt]

/-- The full invariant holds at every parked state of every batch run. -/
theorem batchInv_run (pfx year : String) (fo : Bool) (start endI : Nat)
    (net : Nat → NetOutcome) (evs : List BEvent) (hstart : start ≤ endI + 1) :
    BatchInv start endI (endI + 1 - start)
      (fetchBatchProcesses pfx start endI year fo net evs) := by
  unfold fetchBatchProcesses
  exact runEvents_inv start endI (endI + 1 - start) _ evs _
    (repark_inv start endI (endI + 1 - start) _
      (initSt_core start endI (endI + 1 - start) hstart))

theorem repark_progressLog (endI : Nat) (u : BatchSt) :
    (repark endI u).progressLog = u.progressLog := by
  unfold repark admitBurst
  obtain ⟨-, -, -, h4, -, -, -, -⟩ :=
    admitBurstFuel_unchanged (endI + 1 - u.nextI) endI u
  by_cases hr : (admitBurstFuel (endI + 1 - u.nextI) endI u).aborted = false ∧
      CONCURRENCY ≤ (admitBurstFuel (endI + 1 - u.nextI) endI u).inFlight.length
  · rw [if_pos hr]
    exact h4
  · rw [if_neg hr]
    by_cases he : (admitBurstFuel (endI + 1 - u.nextI) endI u).inFlight.isEmpty
    · rw [if_pos he]
      exact h4
    · rw [if_neg he]
      exact h4

theorem repark_results (endI : Nat) (u : BatchSt) :
    (repark endI u).results = u.results := by
  unfold repark admitBurst
  obtain ⟨-, -, h3, -, -, -, -, -⟩ :=
    admitBurstFuel_unchanged (endI + 1 - u.nextI) endI u
  by_cases hr : (admitBurstFuel (endI + 1 - u.nextI) endI u).aborted = false ∧
      CONCURRENCY ≤ (admitBurstFuel (endI + 1 - u.nextI) endI u).inFlight.length
  · rw [if_pos hr]
    exact h3
  · rw [if_neg hr]
    by_cases he : (admitBurstFuel (endI + 1 - u.nextI) endI u).inFlight.isEmpty
    · rw [if_pos he]
      exact h3
    · rw [if_neg he]
      exact h3

/-- C3: at every observable point of every batch run over a range of size at
least the concurrency limit, the number of fetches in flight never exceeds
CONCURRENCY = 20; whenever the signal is not aborted and identifiers remain
to admit, the window is completely full (the next identifier was admitted as
soon as there was capacity - a sliding window, not fixed-size batches); and
every single admission step of the admission loop preserves the bound, so it
is never exceeded even momentarily. -/
theorem batch_concurrency_window (pfx year : String) (fo : Bool)
    (start endI : Nat) (net : Nat → NetOutcome) (evs : List BEvent)
    (hsize : CONCURRENCY ≤ endI + 1 - start) :
    (fetchBatchProcesses pfx start endI year fo net evs).inFlight.length ≤
      CONCURRENCY ∧
    ((fetchBatchProcesses pfx start endI year fo net evs).aborted = false →
      (fetchBatchProcesses pfx start endI year fo net evs).nextI ≤ endI →
      (fetchBatchProcesses pfx start endI year fo net evs).inFlight.length =
        CONCURRENCY) ∧
    (∀ (u : BatchSt) (fuel : Nat), u.inFlight.length ≤ CONCURRENCY →
      (admitBurstFuel fuel endI u).inFlight.length ≤ CONCURRENCY) := by
  have h20 : CONCURRENCY = 20 := rfl
  have hstart : start ≤ endI + 1 := by omega
  have hinv := batchInv_run pfx year fo start endI net evs hstart
  refine ⟨hinv.core.len_le, ?_, ?_⟩
  · intro hab hni
    by_cases hm :
        (fetchBatchProcesses pfx start endI year fo net evs).mode = .racing
    · exact hinv.race_full hm hab
    · rcases hinv.parked hm with hx | hx
      · rw [hab] at hx
        exact absurd hx (by simp)
      · omega
  · intro u fuel hu
    exact admitBurstFuel_len_le fuel endI u hu

theorem batch_concurrency_window_witness :
    (fetchBatchProcesses "018" 1 40 "2025" false (fun _ => .err connErr)
      []).inFlight.length ≤ CONCURRENCY ∧
    (fetchBatchProcesses "018" 1 40 "2025" false (fun _ => .err connErr)
      []).inFlight.length = CONCURRENCY ∧
    (admitBurstFuel 5 40 (initSt 1)).inFlight.length ≤ CONCURRENCY :=
  ⟨(batch_concurrency_window "018" "2025" false 1 40 (fun _ => .err connErr) []
      (by decide)).1,
   (batch_concurrency_window "018" "2025" false 1 40 (fun _ => .err connErr) []
      (by decide)).2.1 (by decide) (by decide),
   (batch_concurrency_window "018" "2025" false 1 40 (fun _ => .err connErr) []
      (by decide)).2.2 (initSt 1) 5 (by decide)⟩

theorem stepEvent_progress (endI total : Nat) (oracle : Nat → FetchRet)
    (u : BatchSt) (i : Nat) (hmode : u.mode ≠ .done) (hab : u.aborted = false)
    (hmem : i ∈ u.inFlight) :
    (stepEvent endI total oracle u (.complete i)).progressLog =
      u.progressLog ++ [(u.doneCount + 1, total, isConnMarker (oracle i))] := by
  have hlog : (handleCompletion total oracle i u).progressLog =
      u.progressLog ++ [(u.doneCount + 1, total, isConnMarker (oracle i))] := by
    cases ho : oracle i with
    | nullRet =>
      rw [handleCompletion_null total oracle i u hab ho]
      rfl
    | arr rs =>
      rw [handleCompletion_arr total oracle i u rs hab ho]
      rfl
    | marker n =>
      by_cases hth : MAX_CONSECUTIVE_CONN_ERRORS ≤ u.consecutiveConnErrors + 1
      · rw [handleCompletion_marker_trip total oracle i u n hab ho hth]
        rfl
      · rw [handleCompletion_marker_low total oracle i u n hab ho hth]
        rfl
  rw [show stepEvent endI total oracle u (.complete i) =
      (if u.mode = .racing then
        if (handleCompletion total oracle i u).offline = true ∧
            u.offline = false then
          { handleCompletion total oracle i u with
            failed := true
            mode := .done }
        else repark endI (handleCompletion total oracle i u)
      else
        if (handleCompletion total oracle i u).inFlight.isEmpty then
          { handleCompletion total oracle i u with mode := .done }
        else handleCompletion total oracle i u) from by
    unfold stepEvent
    dsimp only
    rw [if_neg hmode, if_pos hmem]]
  by_cases hrace : u.mode = .racing
  · rw [if_pos hrace]
    by_cases hoff : (handleCompletion total oracle i u).offline = true ∧
        u.offline = false
    · rw [if_pos hoff]
      exact hlog
    · rw [if_neg hoff, repark_progressLog]
      exact hlog
  · rw [if_neg hrace]
    by_cases hemp : (handleCompletion total oracle i u).inFlight.isEmpty
    · rw [if_pos hemp]
      exact hlog
    · rw [if_neg hemp]
      exact hlog

/-- C5: in every batch run over [start, end] that finishes with no outage and
no cancellation (the signal never aborted), the progress sink was invoked
exactly end - start + 1 times, the k-th invocation reporting completed count
k (so each completed attempt increments the count) out of the constant total;
and each single completion step invokes the sink exactly once, with the
connectivity-warning flag set exactly when that fetch returned the
CONNECTION_ERROR marker and clear on every other completion. -/
theorem batch_progress_count (pfx year : String) (fo : Bool) (start endI : Nat)
    (net : Nat → NetOutcome) (evs : List BEvent) (hstart : start ≤ endI + 1)
    (hdone : (fetchBatchProcesses pfx start endI year fo net evs).mode = .done)
    (hab : (fetchBatchProcesses pfx start endI year fo net evs).aborted = false) :
    (fetchBatchProcesses pfx start endI year fo net evs).progressLog.length =
      endI + 1 - start ∧
    (fetchBatchProcesses pfx start endI year fo net evs).progressLog.map
        (fun e => (e.1, e.2.1)) =
      (List.range (endI + 1 - start)).map (fun k => (k + 1, endI + 1 - start)) ∧
    (∀ (total : Nat) (oracle : Nat → FetchRet) (u : BatchSt) (i : Nat),
      u.mode ≠ .done → u.aborted = false → i ∈ u.inFlight →
      (stepEvent endI total oracle u (.complete i)).progressLog =
        u.progressLog ++ [(u.doneCount + 1, total, isConnMarker (oracle i))]) := by
  have hinv := batchInv_run pfx year fo start endI net evs hstart
  obtain ⟨l1, l2, l3, l4, l5, l6⟩ := hinv.core.live hab
  have hempt : (fetchBatchProcesses pfx start endI year fo net evs).inFlight = [] := by
    rcases hinv.done_drained hdone with hx | hx
    · rw [l5] at hx
      exact absurd hx (by simp)
    · exact hx
  have hnext : (fetchBatchProcesses pfx start endI year fo net evs).nextI =
      endI + 1 := by
    rcases hinv.parked (by rw [hdone]; simp) with hx | hx
    · rw [hab] at hx
      exact absurd hx (by simp)
    · omega
  have hdc : (fetchBatchProcesses pfx start endI year fo net evs).doneCount =
      endI + 1 - start := by
    rw [hempt] at l3
    simp only [List.length_nil] at l3
    omega
  refine ⟨?_, ?_, fun total oracle u i hm ha hme =>
    stepEvent_progress endI total oracle u i hm ha hme⟩
  · have hlen := congrArg List.length l4
    simp only [List.length_map, List.length_range] at hlen
    rw [hlen, hdc]
  · rw [l4, hdc]

theorem batch_progress_count_witness :
    (fetchBatchProcesses "018" 1 2 "2025" false wNet
      [.complete 1, .complete 2]).progressLog.length = 2 ∧
    (stepEvent 2 2 wOracle wState (.complete 1)).progressLog =
      wState.progressLog ++
        [(wState.doneCount + 1, 2, isConnMarker (wOracle 1))] :=
  ⟨(batch_progress_count "018" "2025" false 1 2 wNet [.complete 1, .complete 2]
      (by decide) (by decide) (by decide)).1,
   (batch_progress_count "018" "2025" false 1 2 wNet [.complete 1, .complete 2]
      (by decide) (by decide) (by decide)).2.2 2 wOracle wState 1 (by decide)
      (by decide) (by decide)⟩

theorem stepEvent_frozen (endI total : Nat) (oracle : Nat → FetchRet)
    (u : BatchSt) (ev : BEvent) (h : u.aborted = true) :
    (stepEvent endI total oracle u ev).aborted = true ∧
    (stepEvent endI total oracle u ev).nextI = u.nextI ∧
    (stepEvent endI total oracle u ev).results = u.results ∧
    (stepEvent endI total oracle u ev).inFlight.Sublist u.inFlight := by
  have hrep : ∀ v : BatchSt, v.aborted = true →
      (repark endI v).aborted = true ∧ (repark endI v).nextI = v.nextI ∧
      (repark endI v).results = v.results ∧
      (repark endI v).inFlight = v.inFlight := by
    intro v hv
    unfold repark admitBurst
    rw [admitBurstFuel_aborted (endI + 1 - v.nextI) endI v hv]
    have hcond : ¬(v.aborted = false ∧ CONCURRENCY ≤ v.inFlight.length) := by
      intro hc
      rw [hv] at hc
      exact absurd hc.1 (by simp)
    rw [if_neg hcond]
    by_cases he : v.inFlight.isEmpty
    · rw [if_pos he]
      exact ⟨hv, rfl, rfl, rfl⟩
    · rw [if_neg he]
      exact ⟨hv, rfl, rfl, rfl⟩
  by_cases hdone : u.mode = .done
  · rw [show stepEvent endI total oracle u ev = u from by
      unfold stepEvent
      rw [if_pos hdone]]
    exact ⟨h, rfl, rfl, List.Sublist.refl _⟩
  · cases ev with
    | cancel =>
      rw [show stepEvent endI total oracle u .cancel =
          { u with aborted := true } from by
        unfold stepEvent
        dsimp only
        rw [if_neg hdone]]
      exact ⟨rfl, rfl, rfl, List.Sublist.refl _⟩
    | complete i =>
      by_cases hmem : i ∈ u.inFlight
      · have hh := handleCompletion_aborted total oracle i u h
        rw [show stepEvent endI total oracle u (.complete i) =
            (if u.mode = .racing then
              if (handleCompletion total oracle i u).offline = true ∧
                  u.offline = false then
                { handleCompletion total oracle i u with
                  failed := true
                  mode := .done }
              else repark endI (handleCompletion total oracle i u)
            else
              if (handleCompletion total oracle i u).inFlight.isEmpty then
                { handleCompletion total oracle i u with mode := .done }
              else handleCompletion total oracle i u) from by
          unfold stepEvent
          dsimp only
          rw [if_neg hdone, if_pos hmem]]
        rw [hh]
        by_cases hrace : u.mode = .racing
        · rw [if_pos hrace]
          have hoff : ¬(({ u with inFlight := u.inFlight.erase i } :
              BatchSt).offline = true ∧ u.offline = false) := by
            intro hc
            have h1 : u.offline = true := hc.1
            rw [hc.2] at h1
            exact absurd h1 (by simp)
          rw [if_neg hoff]
          obtain ⟨r1, r2, r3, r4⟩ :=
            hrep { u with inFlight := u.inFlight.erase i } h
          exact ⟨r1, r2, r3, by
            rw [r4]
            exact List.erase_sublist i u.inFlight⟩
        · rw [if_neg hrace]
          by_cases hemp : ({ u with inFlight := u.inFlight.erase i } :
              BatchSt).inFlight.isEmpty
          · rw [if_pos hemp]
            exact ⟨h, rfl, rfl, List.erase_sublist i u.inFlight⟩
          · rw [if_neg hemp]
            exact ⟨h, rfl, rfl, List.erase_sublist i u.inFlight⟩
      · rw [show stepEvent endI total oracle u (.complete i) = u from by
          unfold stepEvent
          dsimp only
          rw [if_neg hdone, if_neg hmem]]
        exact ⟨h, rfl, rfl, List.Sublist.refl _⟩

/-- C8: from any state in which the abort signal has fired - whether because
the circuit opened or because cancellation was requested - no further event
ever admits a new identifier (the loop counter is frozen) and no further
completion, even a successful one of a fetch already in flight, adds records
to the accumulated results (the in-flight set only drains). -/
theorem no_admission_after_abort (endI total : Nat) (oracle : Nat → FetchRet)
    (evs : List BEvent) (u : BatchSt) (h : u.aborted = true) :
    (runEvents endI total oracle evs u).aborted = true ∧
    (runEvents endI total oracle evs u).nextI = u.nextI ∧
    (runEvents endI total oracle evs u).results = u.results ∧
    (runEvents endI total oracle evs u).inFlight.Sublist u.inFlight := by
  induction evs generalizing u with
  | nil => exact ⟨h, rfl, rfl, List.Sublist.refl _⟩
  | cons e rest ih =>
    obtain ⟨s1, s2, s3, s4⟩ := stepEvent_frozen endI total oracle u e h
    obtain ⟨r1, r2, r3, r4⟩ := ih (stepEvent endI total oracle u e) s1
    exact ⟨r1, r2.trans s2, r3.trans s3, r4.trans s4⟩

theorem no_admission_after_abort_witness :
    (runEvents 10 10 succOracle [.complete 3, .complete 4] wAborted).aborted =
      true ∧
    (runEvents 10 10 succOracle [.complete 3, .complete 4] wAborted).nextI = 5 ∧
    (runEvents 10 10 succOracle [.complete 3, .complete 4] wAborted).results =
      [] ∧
    (runEvents 10 10 succOracle
      [.complete 3, .complete 4] wAborted).inFlight.Sublist [3, 4] :=
  no_admission_after_abort 10 10 succOracle [.complete 3, .complete 4]
    wAborted rfl

theorem stepEvent_results (endI total : Nat) (oracle : Nat → FetchRet)
    (u : BatchSt) (ev : BEvent) :
    (stepEvent endI total oracle u ev).results = u.results ∨
    ∃ (i : Nat) (rs : List ProcessRecord), ev = .complete i ∧
      oracle i = .arr rs ∧ rs ≠ [] ∧
      (stepEvent endI total oracle u ev).results = u.results ++ rs := by
  by_cases hdone : u.mode = .done
  · left
    rw [show stepEvent endI total oracle u ev = u from by
      unfold stepEvent
      rw [if_pos hdone]]
  · cases ev with
    | cancel =>
      left
      rw [show stepEvent endI total oracle u .cancel =
          { u with aborted := true } from by
        unfold stepEvent
        dsimp only
        rw [if_neg hdone]]
    | complete i =>
      by_cases hmem : i ∈ u.inFlight
      · have hres : (handleCompletion total oracle i u).results = u.results ∨
            ∃ rs : List ProcessRecord, oracle i = .arr rs ∧ rs ≠ [] ∧
              (handleCompletion total oracle i u).results = u.results ++ rs := by
          by_cases habt : u.aborted = true
          · left
            rw [handleCompletion_aborted total oracle i u habt]
          · have hab' : u.aborted = false := by
              revert habt
              cases u.aborted <;> simp
            cases ho : oracle i with
            | nullRet =>
              left
              rw [handleCompletion_null total oracle i u hab' ho]
            | marker n =>
              left
              by_cases hth : MAX_CONSECUTIVE_CONN_ERRORS ≤
                  u.consecutiveConnErrors + 1
              · rw [handleCompletion_marker_trip total oracle i u n hab' ho hth]
              · rw [handleCompletion_marker_low total oracle i u n hab' ho hth]
            | arr rs =>
              by_cases hrs : 0 < rs.length
              · right
                refine ⟨rs, rfl, ?_, ?_⟩
                · intro hnil
                  rw [hnil] at hrs
                  exact absurd hrs (by simp)
                · rw [handleCompletion_arr total oracle i u rs hab' ho]
                  dsimp only
                  rw [if_pos hrs]
              · left
                rw [handleCompletion_arr total oracle i u rs hab' ho]
                dsimp only
                rw [if_neg hrs]
        rw [show stepEvent endI total oracle u (.complete i) =
            (if u.mode = .racing then
              if (handleCompletion total oracle i u).offline = true ∧
                  u.offline = false then
                { handleCompletion total oracle i u with
                  failed := true
                  mode := .done }
              else repark endI (handleCompletion total oracle i u)
            else
              if (handleCompletion total oracle i u).inFlight.isEmpty then
                { handleCompletion total oracle i u with mode := .done }
              else handleCompletion total oracle i u) from by
          unfold stepEvent
          dsimp only
          rw [if_neg hdone, if_pos hmem]]
        by_cases hrace : u.mode = .racing
        · rw [if_pos hrace]
          by_cases hoff : (handleCompletion total oracle i u).offline = true ∧
              u.offline = false
          · rw [if_pos hoff]
            rcases hres with hx | ⟨rs, ho, hne, hx⟩
            · exact Or.inl hx
            · exact Or.inr ⟨i, rs, rfl, ho, hne, hx⟩
          · rw [if_neg hoff]
            rcases hres with hx | ⟨rs, ho, hne, hx⟩
            · left
              rw [repark_results]
              exact hx
            · refine Or.inr ⟨i, rs, rfl, ho, hne, ?_⟩
              rw [repark_results]
              exact hx
        · rw [if_neg hrace]
          by_cases hemp : (handleCompletion total oracle i u).inFlight.isEmpty
          · rw [if_pos hemp]
            rcases hres with hx | ⟨rs, ho, hne, hx⟩
            · exact Or.inl hx
            · exact Or.inr ⟨i, rs, rfl, ho, hne, hx⟩
          · rw [if_neg hemp]
            rcases hres with hx | ⟨rs, ho, hne, hx⟩
            · exact Or.inl hx
            · exact Or.inr ⟨i, rs, rfl, ho, hne, hx⟩
      · left
        rw [show stepEvent endI total oracle u (.complete i) = u from by
          unfold stepEvent
          dsimp only
          rw [if_neg hdone, if_neg hmem]]

theorem runEvents_results (endI total : Nat) (oracle : Nat → FetchRet)
    (evs : List BEvent) (u : BatchSt) (h : ResultsFromSuccesses oracle u) :
    ResultsFromSuccesses oracle (runEvents endI total oracle evs u) := by
  induction evs generalizing u with
  | nil => exact h
  | cons e rest ih =>
    apply ih
    obtain ⟨ls, hl1, hl2⟩ := h
    rcases stepEvent_results endI total oracle u e with hx | ⟨i, rs, -, ho, hne, hx⟩
    · exact ⟨ls, by rw [hx, hl1], hl2⟩
    · refine ⟨ls ++ [rs], ?_, ?_⟩
      · rw [hx, hl1, List.flatten_append]
        simp
      · intro rs' hrs'
        rcases List.mem_append.mp hrs' with hin | hin
        · exact hl2 rs' hin
        · rw [List.mem_singleton] at hin
          subst hin
          exact ⟨hne, i, ho⟩

/-- C10: in every batch run the accumulated result sequence is a
concatenation of non-empty record arrays returned by fetches - records are
appended only when the fetch returned a non-empty array, so the
CONNECTION_ERROR marker object and null/empty outcomes never enter the
results. -/
theorem results_only_from_success (pfx year : String) (fo : Bool)
    (start endI : Nat) (net : Nat → NetOutcome) (evs : List BEvent) :
    ∃ ls : List (List ProcessRecord),
      (fetchBatchProcesses pfx start endI year fo net evs).results =
        ls.flatten ∧
      ∀ rs ∈ ls, rs ≠ [] ∧
        ∃ i : Nat, fetchProcessData (numeroFor pfx i year) fo (net i) =
          .arr rs := by
  have hinit : ResultsFromSuccesses
      (fun i => fetchProcessData (numeroFor pfx i year) fo (net i))
      (repark endI (initSt start)) := by
    refine ⟨[], ?_, by simp⟩
    rw [repark_results]
    rfl
  exact runEvents_results endI (endI + 1 - start) _ evs _ hinit

theorem results_only_from_success_witness :
    ∃ ls : List (List ProcessRecord),
      (fetchBatchProcesses "018" 1 2 "2025" false wNet
        [.complete 1, .complete 2]).results = ls.flatten ∧
      ∀ rs ∈ ls, rs ≠ [] ∧
        ∃ i : Nat, fetchProcessData (numeroFor "018" i "2025") false (wNet i) =
          .arr rs :=
  results_only_from_success "018" "2025" false 1 2 wNet
    [.complete 1, .complete 2]
